import Mathlib

/-!
Verification of the iv-pid RNG-reversal core (src/include/func.h).

The repository ships only the interface header `src/include/func.h`:
every function is declared and documented there, but no body is under
`src/`.  Each operation below is therefore modelled from the
natural-language specification (and the header's own doc comments),
with a `Modelled from the spec:` note saying exactly what is absent.
The `PokeData` structure and its default constructor are the one piece
of executable code present in the header and are translated directly.
-/

namespace IvPid

/-- The 32-bit modulus `2^32` of the RNG state space. -/
def M32 : Nat := 2 ^ 32

/-- The 16-bit modulus `2^16` of the visible outputs. -/
def M16 : Nat := 2 ^ 16

/-- High 16 bits of a 32-bit state, i.e. the value of
`(uint16_t)(state >> 16)` on a `uint32_t`. -/
def high16 (s : Nat) : Nat := (s / M16) % M16

/-- Modelled from the spec: the multiplier `A` of the fixed linear
recurrence of §4.1 ("the generator's specific multiplier `A`"); the body
of `RNG` is absent from src, and this is the in-game generator's
multiplier that the header's "just like the in-game RNG does" refers to. -/
def A : Nat := 0x41C64E6D

/-- Modelled from the spec: the increment `C` of the fixed linear
recurrence of §4.1 ("the generator's ... increment `C`"). -/
def C : Nat := 0x6073

/-- Modelled from the spec: the unique modular inverse `A_inv` of `A`
modulo `2^32` used by `step_backward` (§4.1). -/
def Ainv : Nat := 0xEEB9EB65

/-- Modelled from the spec: `RNG` (declared at src/include/func.h:18,
body absent).  §4.1 `step_forward`: `next_state = state * A + C (mod 2^32)`;
the returned random number is the high 16 bits of the next state.  The
C++ updates `state` in place and returns the output; here the new state
is the first component and the output the second. -/
def RNG (state : Nat) : Nat × Nat :=
  let s := (state * A + C) % M32
  (s, high16 s)

/-- Modelled from the spec: `antiRNG` (declared at src/include/func.h:28,
body absent).  §4.1 `step_backward`:
`prev_state = (state - C) * A_inv (mod 2^32)` — the `uint32_t`
subtraction `state - C` is the wrap-around `state + (2^32 - C)` — and
the returned random number is the high 16 bits of the previous state. -/
def antiRNG (state : Nat) : Nat × Nat :=
  let s := ((state + (M32 - C)) * Ainv) % M32
  (s, high16 s)

/-- The HP IV: lowest 5-bit field of a 16-bit output (§3 invariant:
three 5-bit fields per output, HP/Attack/Defense). -/
def ivHP (n : Nat) : Nat := n % 32

/-- The Attack IV: middle 5-bit field of a 16-bit output. -/
def ivAT (n : Nat) : Nat := (n / 32) % 32

/-- The Defense IV: top 5-bit field (bits 10..14) of a 16-bit output. -/
def ivDF (n : Nat) : Nat := (n / 1024) % 32

/-- Modelled from the spec: `minIVtest` (declared at src/include/func.h:36,
body absent).  §4.2 `decode_min_iv`: extracts the three 5-bit fields and
reports whether each meets-or-exceeds the corresponding target. -/
def minIVtest (n : Nat) (hp atk df : Int) : Bool :=
  decide (hp ≤ (ivHP n : Int)) && decide (atk ≤ (ivAT n : Int)) &&
    decide (df ≤ (ivDF n : Int))

/-- Modelled from the spec: `exactIVtest` (declared at src/include/func.h:44,
body absent).  §4.2 `decode_exact_iv`: same extraction, exact equality on
all three fields. -/
def exactIVtest (n : Nat) (hp atk df : Int) : Bool :=
  ((ivHP n : Int) == hp) && ((ivAT n : Int) == atk) && ((ivDF n : Int) == df)

/-- The `IVtester` function-pointer type of src/include/func.h:46. -/
def IVtester : Type := Nat → Int → Int → Int → Bool

/-- Modelled from the spec: `GetIVtester` (declared at src/include/func.h:53,
body absent).  §4.2: "an indirection selects between the two decoders
based on a single boolean flag". -/
def GetIVtester (exact : Bool) : IVtester :=
  if exact then exactIVtest else minIVtest

/-- Modelled from the spec: `PIDtest` (declared at src/include/func.h:62,
body absent).  §4.2 `decode_pid_traits`: ability is `pid & 1`, nature is
`pid mod 25`; matches if the ability target is the "any" sentinel `2` or
equals the low bit, and the nature target is the "any" sentinel `-1` or
equals `pid mod 25`. -/
def PIDtest (pid : Nat) (nature ability : Int) : Bool :=
  (ability == 2 || ability == ((pid % 2 : Nat) : Int)) &&
    (nature == -1 || nature == ((pid % 25 : Nat) : Int))

/-- Weighted sum of the lowest bits of the three 5-bit IV fields of one
output, with weights 1/2/4 in field order. -/
def lowBits3 (n : Nat) : Nat :=
  ivHP n % 2 + 2 * (ivAT n % 2) + 4 * (ivDF n % 2)

/-- Hidden-Power type index from the two IV outputs (§4.2
`hidden_power_full`): the six low bits weighted 1..32 — the first
output's three fields carry weights 1/2/4, the second output's fields
weights 8/16/32 — scaled into the 16-entry type table. -/
def hpTypeOf (iv1 iv2 : Nat) : Nat :=
  (lowBits3 iv1 + 8 * lowBits3 iv2) * 15 / 63

/-- Hidden-Power base power from the two IV outputs (§4.2
`hidden_power_full`): the six second-lowest bits, same weights, scaled
into the 30–70 range. -/
def hpPowerOf (iv1 iv2 : Nat) : Nat :=
  (lowBits3 (iv1 / 2) + 8 * lowBits3 (iv2 / 2)) * 40 / 63 + 30

/-- Modelled from the spec: `HPtest` (declared at src/include/func.h:82,
body absent).  §4.2 `hidden_power_full`: compares the derived type with
the target (`-1` = any) and the derived power against the minimum power
target (`-1` = any), per the fixed Hidden-Power formula. -/
def HPtest (iv1 iv2 : Nat) (hpt hpp : Int) : Bool :=
  (hpt == -1 || hpt == (hpTypeOf iv1 iv2 : Int)) &&
    (hpp == -1 || decide (hpp ≤ (hpPowerOf iv1 iv2 : Int)))

/-- Modelled from the spec: `HPpretest` (declared at src/include/func.h:72,
body absent).  §4.2 `hidden_power_feasible`: "a cheap pre-filter using
only the first three stats' bits ... to rule out infeasible type/power
combinations before the second output is even computed; never produces a
false negative, may produce false positives".  The second output
contributes one weight-8 low-bit sum and one weight-8 second-bit sum,
each in `0..7`; the wanted Hidden Power is feasible from `iv` exactly
when some pair of such contributions meets the targets. -/
def HPpretest (iv : Nat) (hpt hpp : Int) : Bool :=
  (List.range 8).any fun x =>
    (List.range 8).any fun y =>
      (hpt == -1 || hpt == (((lowBits3 iv + 8 * x) * 15 / 63 : Nat) : Int)) &&
        (hpp == -1 || decide (hpp ≤ (((lowBits3 (iv / 2) + 8 * y) * 40 / 63 + 30 : Nat) : Int)))

/-- Modelled from the spec: `XORtest` (declared at src/include/func.h:90,
body absent).  §4.2 `is_shiny`: true if the caller's merged
trainer-ID value is the "skip" sentinel `1` (header: "1 if this test is
not needed"), or if `pid_l xor pid_h xor IDxorSID` has its low 3 bits
all zero. -/
def XORtest (pid_l pid_h IDxorSID : Nat) : Bool :=
  (IDxorSID == 1) || ((pid_l ^^^ pid_h ^^^ IDxorSID) % 8 == 0)

/-- A genuine (non-sentinel) shininess check value: `(ID xor SID) and not 7`
per the header's doc of `XORtest`'s `IDxorSID` parameter, i.e. the
trainer-ID XOR with its low 3 bits cleared. -/
def genuineCheck (tid sid : Nat) : Nat := 8 * ((tid ^^^ sid) / 8)

/-- The `PokeData` match profile, translated from the struct at /
src/include/func.h:96-108 (present in the header in full). -/
structure PokeData where
  hp : Int
  atk : Int
  df : Int
  spa : Int
  spd : Int
  spe : Int
  nature : Int
  ability : Int
  hp_type : Int
  hp_power : Int
  IDxorSID : Nat
deriving DecidableEq, Repr

/-- The default `PokeData` constructor (src/include/func.h:105-107, in the
header in full): nature/Hidden-Power targets "any", ability "any" (2),
shininess skipped (IDxorSID 1), all six IV targets 0. -/
def defaultPokeData : PokeData :=
  { hp := 0, atk := 0, df := 0, spa := 0, spd := 0, spe := 0,
    nature := -1, ability := 2, hp_type := -1, hp_power := -1, IDxorSID := 1 }

/-- One emitted search result: the accepted 32-bit state together with
the PID halves derived for it, the IV outputs and the method that
produced it (§3 "Result": an emitted (seed, derived PID, derived IVs)
tuple). -/
structure PIDResult where
  state : Nat
  pid_l : Nat
  pid_h : Nat
  iv1 : Nat
  iv2 : Nat
  method : Int
deriving DecidableEq, Repr

/-- The PID halves for a candidate state: `FindPID`'s `seed` is "the RNG
state after the first call that has nothing to do with PID"
(src/include/func.h:112), so stepping backward once yields the high PID
half and once more the low half (§3: the PID is two consecutive outputs,
low half first). -/
def pidOf (c : Nat) : Nat × Nat :=
  let ph := (antiRNG c).2
  let pl := (antiRNG (antiRNG c).1).2
  (pl, ph)

/-- The 32-bit PID assembled from a candidate state's two halves. -/
def pidValue (c : Nat) : Nat := (pidOf c).2 * M16 + (pidOf c).1

/-- Whether a candidate state passes `FindPID`'s PID checks against a
profile: nature/ability via `PIDtest` and shininess via `XORtest`
(§4.4 `find_pid`: "checks PID/ability/nature/shininess"). -/
def pidPass (pdata : PokeData) (c : Nat) : Bool :=
  PIDtest (pidValue c) pdata.nature pdata.ability &&
    XORtest (pidOf c).1 (pidOf c).2 pdata.IDxorSID

/-- The result record emitted for an accepted candidate state. -/
def mkResult (c : Nat) (iv1 iv2 : Nat) (method : Int) : PIDResult :=
  { state := c, pid_l := (pidOf c).1, pid_h := (pidOf c).2,
    iv1 := iv1, iv2 := iv2, method := method }

/-- Modelled from the spec: `FindPID` (declared at src/include/func.h:122,
body absent).  §4.4 `find_pid`: derives the PID halves for `seed`,
checks PID/ability/nature/shininess, and "must also test
`seed xor 0x80000000`" because the high bit of the state is not
observable from the PID; each state that passes emits one result and
increments the counter.  Printing a result is modelled as appending it
to the returned list; the `int& count` becomes the second component. -/
def FindPID (seed : Nat) (iv1 iv2 : Nat) (pdata : PokeData) (method : Int)
    (count : Nat) : List PIDResult × Nat :=
  let first :=
    if pidPass pdata seed then ([mkResult seed iv1 iv2 method], count + 1)
    else ([], count)
  if pidPass pdata (seed ^^^ 0x80000000) then
    (first.1 ++ [mkResult (seed ^^^ 0x80000000) iv1 iv2 method], first.2 + 1)
  else first

/-- Modelled from the spec: `HighPIDmatches` (declared at
src/include/func.h:165, body absent).  §4.4 `high_pid_matches`:
"advances `state` one step and checks whether the resulting output
equals `pid_high`". -/
def HighPIDmatches (state : Nat) (pid_h : Nat) : Bool :=
  (RNG state).2 == pid_h

/-- Backward iteration of the RNG: the state reached after `n` backward
steps. -/
def antiRNGiter (s : Nat) : Nat → Nat
  | 0 => s
  | n + 1 => antiRNGiter (antiRNG s).1 n

/-- Modelled from the spec: the per-method offset table of §4.3/§9 ("a
small per-method table of step offsets").  For each generic method id,
`(backsteps from Test's seed to the state after the IV1 call, extra
skipped calls between the PID calls and the IV1 call)`: method 0 (NDS /
Method-1 shape) has IV1 immediately after the PID calls and IV2
immediately after IV1; method 1 (common GBA) skips one call between PID
and IV1; method 2 (remaining GBA) skips one call between IV1 and IV2. -/
def methodOffsets (m : Nat) : Nat × Nat :=
  match m with
  | 0 => (1, 0)
  | 1 => (1, 1)
  | _ => (2, 0)

/-- Modelled from the spec: the generic method ids permitted by the
`gba` selector (src/include/func.h:130: 0 = only NDS, 1 = NDS and common
GBA, 2 = all; the chained-shiny selector -1 takes a different path). -/
def methodsFor (gba : Int) : List Nat :=
  if gba == 0 then [0] else if gba == 1 then [0, 1] else [0, 1, 2]

/-- Modelled from the spec: the shiny-compatible relationship each
intermediate output of the chained-shiny walk must satisfy (§4.3: the
spec gives only the qualitative shape, "each must independently satisfy
a shiny-compatible relationship"); modelled as the shininess rule
applied to the output against the profile's merged trainer-ID value. -/
def chainShinyOk (o idxor : Nat) : Bool := (o ^^^ idxor) % 8 == 0

/-- Modelled from the spec: `FindChainedPID` (declared at
src/include/func.h:146, body absent).  §4.4 `find_chained_pid`:
analogous to `find_pid` but walks the chained-shiny schedule, validating
every intermediate shiny-compatibility constraint (13 intermediate
outputs) before accepting. -/
def FindChainedPID (seed : Nat) (iv1 iv2 : Int) (pdata : PokeData)
    (count : Nat) : List PIDResult × Nat :=
  if (List.range 13).all
      (fun i => chainShinyOk (high16 (antiRNGiter seed (i + 1))) pdata.IDxorSID) then
    FindPID seed iv1.toNat iv2.toNat pdata (-1) count
  else ([], count)

/-- Modelled from the spec: `Test` (declared at src/include/func.h:160,
body absent).  §4.4 `test`: `seed` is the state after the last IV call,
so its own output is IV2; for each method permitted by `gba` the walker
steps backward to IV1 per the method's offsets, applies the selected IV
decoder to both outputs, then the Hidden-Power pre-filter and full test,
and on success delegates to `FindPID` with the state after the first
non-PID call; the `gba == -1` sentinel dispatches to the chained-shiny
walker instead. -/
def Test (seed : Nat) (pdata : PokeData) (gba : Int) (IVtest : IVtester)
    (count : Nat) : List PIDResult × Nat :=
  let iv2 := high16 seed
  if gba == -1 then
    let iv1 := high16 (antiRNGiter seed 1)
    if IVtest iv1 pdata.hp pdata.atk pdata.df &&
        IVtest iv2 pdata.spe pdata.spa pdata.spd &&
        HPpretest iv1 pdata.hp_type pdata.hp_power &&
        HPtest iv1 iv2 pdata.hp_type pdata.hp_power then
      FindChainedPID (antiRNGiter seed 1) (iv1 : Int) (iv2 : Int) pdata count
    else ([], count)
  else
    (methodsFor gba).foldl
      (fun acc m =>
        let off := methodOffsets m
        let iv1 := high16 (antiRNGiter seed off.1)
        if IVtest iv1 pdata.hp pdata.atk pdata.df &&
            IVtest iv2 pdata.spe pdata.spa pdata.spd &&
            HPpretest iv1 pdata.hp_type pdata.hp_power &&
            HPtest iv1 iv2 pdata.hp_type pdata.hp_power then
          let r := FindPID (antiRNGiter seed (off.1 + off.2)) iv1 iv2 pdata (m : Int) acc.2
          (acc.1 ++ r.1, r.2)
        else acc)
      ([], count)

/-- The seeds explored by the exhaustive search: every seed below
`0x80000000` in order (src/include/func.h:132: "Only seeds lower than
0x8000 0000 are explored"). -/
def seedsExplored : List Nat := List.range 0x80000000

/-- One step of the exhaustive search: run `Test` on one seed and
accumulate its emissions and counter. -/
def testStep (pdata : PokeData) (gba : Int) (exact : Bool)
    (acc : List PIDResult × Nat) (s : Nat) : List PIDResult × Nat :=
  let r := Test s pdata gba (GetIVtester exact) acc.2
  (acc.1 ++ r.1, r.2)

/-- Modelled from the spec: `TestAllPossibleSeeds` (declared at
src/include/func.h:133, body absent).  §4.4 `test_all_possible_seeds`:
"enumerates every seed in `[0, 0x7FFFFFFF]` ... and calls `test` on
each"; the IV decoder is resolved once up front via `GetIVtester`. -/
def TestAllPossibleSeeds (pdata : PokeData) (gba : Int) (exact : Bool)
    (count : Nat) : List PIDResult × Nat :=
  seedsExplored.foldl (testStep pdata gba exact) ([], count)

end IvPid

namespace IvPid

theorem A_mul_Ainv_mod : (A * Ainv) % M32 = 1 % M32 := by decide

theorem Ainv_mul_A_mod : (Ainv * A) % M32 = 1 % M32 := by decide

theorem C_le_M32 : C ≤ M32 := by decide

/-- Stepping forward then backward restores any in-range state. -/
theorem antiRNG_RNG (s : Nat) (h : s < M32) : (antiRNG (RNG s).1).1 = s := by
  show ((((s * A + C) % M32) + (M32 - C)) * Ainv) % M32 = s
  have key : (((s * A + C) % M32) + (M32 - C)) * Ainv ≡ s [MOD M32] := by
    calc (((s * A + C) % M32) + (M32 - C)) * Ainv
        ≡ ((s * A + C) + (M32 - C)) * Ainv [MOD M32] :=
          ((Nat.mod_modEq (s * A + C) M32).add_right (M32 - C)).mul_right Ainv
      _ = s * (A * Ainv) + Ainv * M32 := by
          have hC := C_le_M32
          have : (s * A + C) + (M32 - C) = s * A + M32 := by omega
          rw [this]; ring
      _ ≡ s * (A * Ainv) + 0 [MOD M32] :=
          Nat.ModEq.add_left _ ((Nat.modEq_zero_iff_dvd).mpr (dvd_mul_left M32 Ainv))
      _ = s * (A * Ainv) := by ring
      _ ≡ s * 1 [MOD M32] := Nat.ModEq.mul_left s A_mul_Ainv_mod
      _ = s := by ring
  have : (((s * A + C) % M32) + (M32 - C)) * Ainv % M32 = s % M32 := key
  rw [this, Nat.mod_eq_of_lt h]

/-- Stepping backward then forward restores any in-range state. -/
theorem RNG_antiRNG (s : Nat) (h : s < M32) : (RNG (antiRNG s).1).1 = s := by
  show ((((s + (M32 - C)) * Ainv) % M32) * A + C) % M32 = s
  have key : (((s + (M32 - C)) * Ainv) % M32) * A + C ≡ s [MOD M32] := by
    calc (((s + (M32 - C)) * Ainv) % M32) * A + C
        ≡ ((s + (M32 - C)) * Ainv) * A + C [MOD M32] :=
          ((Nat.mod_modEq ((s + (M32 - C)) * Ainv) M32).mul_right A).add_right C
      _ = (s + (M32 - C)) * (Ainv * A) + C := by ring
      _ ≡ (s + (M32 - C)) * 1 + C [MOD M32] :=
          (Nat.ModEq.mul_left (s + (M32 - C)) Ainv_mul_A_mod).add_right C
      _ = s + M32 := by
          have hC := C_le_M32
          omega
      _ ≡ s [MOD M32] := Nat.add_mod_right s M32
  have : ((((s + (M32 - C)) * Ainv) % M32) * A + C) % M32 = s % M32 := key
  rw [this, Nat.mod_eq_of_lt h]

/-- C1: for every 32-bit state `s`, stepping forward one step with `RNG`
and then backward one step with `antiRNG` returns the state to exactly
`s`, and symmetrically stepping backward then forward returns `s`. -/
theorem claim1_rng_invertible (s : Nat) (h : s < 2 ^ 32) :
    (antiRNG (RNG s).1).1 = s ∧ (RNG (antiRNG s).1).1 = s :=
  ⟨antiRNG_RNG s h, RNG_antiRNG s h⟩

/-- Witness for C1 at the concrete state `123456789`. -/
theorem claim1_rng_invertible_witness :
    123456789 < 2 ^ 32 ∧
      ((antiRNG (RNG 123456789).1).1 = 123456789 ∧
        (RNG (antiRNG 123456789).1).1 = 123456789) :=
  ⟨by decide, claim1_rng_invertible 123456789 (by decide)⟩

/-- C2: `RNG` advances the state to `s * A + C (mod 2^32)` and returns
the high 16 bits of the next state; `antiRNG` moves the state to
`(s - C) * A_inv (mod 2^32)` where `A_inv` is the unique modular inverse
of `A` modulo `2^32` (any in-range `b` with `A * b ≡ 1` equals the
constant `Ainv` the backward step uses), and returns the high 16 bits of
the previous state. -/
theorem claim2_step_definitions (s b : Nat) (hs : s < 2 ^ 32)
    (hb : b < 2 ^ 32) (hbinv : (A * b) % M32 = 1 % M32) :
    (RNG s).1 = (s * A + C) % M32 ∧
    (RNG s).2 = (RNG s).1 / 2 ^ 16 ∧
    (antiRNG s).1 = ((s + (M32 - C)) * Ainv) % M32 ∧
    (antiRNG s).2 = (antiRNG s).1 / 2 ^ 16 ∧
    b = Ainv := by
  have hbA : b = Ainv := by
    have key : b ≡ Ainv [MOD M32] := by
      calc b = b * 1 := (mul_one b).symm
        _ ≡ b * (A * Ainv) [MOD M32] := Nat.ModEq.mul_left b A_mul_Ainv_mod.symm
        _ = (A * b) * Ainv := by ring
        _ ≡ 1 * Ainv [MOD M32] := Nat.ModEq.mul_right Ainv hbinv
        _ = Ainv := one_mul Ainv
    have hA : Ainv < M32 := by decide
    have hb2 : b < M32 := hb
    have : b % M32 = Ainv % M32 := key
    rwa [Nat.mod_eq_of_lt hb2, Nat.mod_eq_of_lt hA] at this
  refine ⟨rfl, ?_, rfl, ?_, hbA⟩
  · show high16 ((s * A + C) % M32) = (s * A + C) % M32 / 2 ^ 16
    have hlt : (s * A + C) % M32 < M32 := Nat.mod_lt _ (by decide)
    unfold high16 M16
    have hM : M32 = 2 ^ 16 * 2 ^ 16 := by decide
    rw [hM] at hlt
    exact Nat.mod_eq_of_lt (Nat.div_lt_of_lt_mul hlt)
  · show high16 (((s + (M32 - C)) * Ainv) % M32)
        = ((s + (M32 - C)) * Ainv) % M32 / 2 ^ 16
    have hlt : ((s + (M32 - C)) * Ainv) % M32 < M32 := Nat.mod_lt _ (by decide)
    unfold high16 M16
    have hM : M32 = 2 ^ 16 * 2 ^ 16 := by decide
    rw [hM] at hlt
    exact Nat.mod_eq_of_lt (Nat.div_lt_of_lt_mul hlt)

/-- Witness for C2 at state `0` and the inverse constant itself. -/
theorem claim2_step_definitions_witness :
    (0 : Nat) < 2 ^ 32 ∧ 0xEEB9EB65 < 2 ^ 32 ∧ (A * 0xEEB9EB65) % M32 = 1 % M32 ∧
      ((RNG 0).1 = (0 * A + C) % M32 ∧
       (RNG 0).2 = (RNG 0).1 / 2 ^ 16 ∧
       (antiRNG 0).1 = ((0 + (M32 - C)) * Ainv) % M32 ∧
       (antiRNG 0).2 = (antiRNG 0).1 / 2 ^ 16 ∧
       0xEEB9EB65 = Ainv) :=
  ⟨by decide, by decide, by decide,
    claim2_step_definitions 0 0xEEB9EB65 (by decide) (by decide) (by decide)⟩

/-- C9: the shininess test is symmetric in the two PID halves, because
the test XORs them together and XOR is commutative. -/
theorem claim9_xortest_symmetric (a b x : Nat) :
    XORtest a b x = XORtest b a x := by
  unfold XORtest
  rw [Nat.xor_comm a b]

/-- C10: the "skip shininess" sentinel is the value `1`: `XORtest`
accepts every pair of PID halves when the check value is `1`; `1` is
exactly the `IDxorSID` set by the default `PokeData` constructor; and a
genuine check value — `(ID xor SID)` with its low 3 bits cleared — is
never `1`, so on genuine values `XORtest` always performs the real
low-3-bits shininess comparison and the skip branch never masks it. -/
theorem claim10_skip_sentinel :
    (∀ a b : Nat, XORtest a b 1 = true) ∧
    defaultPokeData.IDxorSID = 1 ∧
    (∀ tid sid : Nat, (genuineCheck tid sid == 1) = false) ∧
    (∀ a b tid sid : Nat,
      XORtest a b (genuineCheck tid sid) =
        ((a ^^^ b ^^^ genuineCheck tid sid) % 8 == 0)) := by
  refine ⟨fun a b => by simp [XORtest], rfl, fun tid sid => ?_, fun a b tid sid => ?_⟩
  · simp only [genuineCheck, beq_eq_false_iff_ne, ne_eq]
    omega
  · have hne : genuineCheck tid sid ≠ 1 := by
      simp only [genuineCheck]
      omega
    simp [XORtest, hne]

/-- C6: `PIDtest pid nature ability` is true iff the ability target is
the "any" sentinel `2` or equals `pid & 1`, and the nature target is the
"any" sentinel `-1` or equals `pid mod 25`. -/
theorem claim6_pidtest_iff (pid : Nat) (nature ability : Int)
    (h : pid < 2 ^ 32) :
    PIDtest pid nature ability = true ↔
      ((ability = 2 ∨ ability = ((pid % 2 : Nat) : Int)) ∧
        (nature = -1 ∨ nature = ((pid % 25 : Nat) : Int))) := by
  simp [PIDtest, Bool.and_eq_true, Bool.or_eq_true, beq_iff_eq]

/-- Witness for C6 at `pid = 7`, both targets "any". -/
theorem claim6_pidtest_iff_witness :
    (7 : Nat) < 2 ^ 32 ∧ PIDtest 7 (-1) 2 = true :=
  ⟨by decide, (claim6_pidtest_iff 7 (-1) 2 (by decide)).mpr
    ⟨Or.inl rfl, Or.inl rfl⟩⟩

/-- C7: for every 16-bit output `o` and the three 5-bit IV fields
`(h, a, d)` it decodes to, the exact test and the minimum test both
accept `(h, a, d)`, and raising the HP target to `h + 1` makes the
minimum test fail. -/
theorem claim7_min_exact_consistency (o : Nat) (ho : o < 2 ^ 16) :
    exactIVtest o (ivHP o) (ivAT o) (ivDF o) = true ∧
    minIVtest o (ivHP o) (ivAT o) (ivDF o) = true ∧
    minIVtest o ((ivHP o : Int) + 1) (ivAT o) (ivDF o) = false := by
  refine ⟨?_, ?_, ?_⟩
  · simp [exactIVtest]
  · simp [minIVtest]
  · have h1 : decide (((ivHP o : Int) + 1) ≤ (ivHP o : Int)) = false := by
      simp
    simp [minIVtest, h1]

/-- Witness for C7 at the output `0x7FFF`. -/
theorem claim7_min_exact_consistency_witness :
    (0x7FFF : Nat) < 2 ^ 16 ∧
      (exactIVtest 0x7FFF (ivHP 0x7FFF) (ivAT 0x7FFF) (ivDF 0x7FFF) = true ∧
       minIVtest 0x7FFF (ivHP 0x7FFF) (ivAT 0x7FFF) (ivDF 0x7FFF) = true ∧
       minIVtest 0x7FFF ((ivHP 0x7FFF : Int) + 1) (ivAT 0x7FFF) (ivDF 0x7FFF) = false) :=
  ⟨by decide, claim7_min_exact_consistency 0x7FFF (by decide)⟩

/-- C5: the Hidden-Power pre-filter is sound: whenever the full test
`HPtest` accepts a pair of IV outputs against the type and power
targets, the cheap pre-filter `HPpretest` on the first output also
accepts (no false negatives). -/
theorem claim5_hp_prefilter_sound (iv1 iv2 : Nat) (hpt hpp : Int)
    (h1 : iv1 < 2 ^ 16) (h2 : iv2 < 2 ^ 16)
    (h : HPtest iv1 iv2 hpt hpp = true) :
    HPpretest iv1 hpt hpp = true := by
  unfold HPpretest
  rw [List.any_eq_true]
  refine ⟨lowBits3 iv2, List.mem_range.mpr ?_, ?_⟩
  · unfold lowBits3 ivHP ivAT ivDF
    omega
  rw [List.any_eq_true]
  refine ⟨lowBits3 (iv2 / 2), List.mem_range.mpr ?_, ?_⟩
  · unfold lowBits3 ivHP ivAT ivDF
    omega
  · exact h

/-- Witness for C5: a fully unconstrained Hidden-Power target at
outputs `(0, 0)`. -/
theorem claim5_hp_prefilter_sound_witness :
    (0 : Nat) < 2 ^ 16 ∧ HPtest 0 0 (-1) (-1) = true ∧
      HPpretest 0 (-1) (-1) = true :=
  ⟨by decide, by decide,
    claim5_hp_prefilter_sound 0 0 (-1) (-1) (by decide) (by decide) (by decide)⟩

/-- C3: the exhaustive search enumerates exactly the seeds in
`[0, 0x7FFFFFFF]`, each once, and `TestAllPossibleSeeds` is the fold of
a `Test` invocation over that enumeration (a fixed-size, total
computation, so it always terminates). -/
theorem claim3_exhaustive_enumeration (pdata : PokeData) (gba : Int)
    (exact : Bool) (count : Nat) (s : Nat) :
    (s ∈ seedsExplored ↔ s ≤ 0x7FFFFFFF) ∧
    seedsExplored.Nodup ∧
    seedsExplored.length = 0x80000000 ∧
    TestAllPossibleSeeds pdata gba exact count =
      seedsExplored.foldl (testStep pdata gba exact) ([], count) := by
  refine ⟨?_, List.nodup_range _, ?_, rfl⟩
  · rw [seedsExplored, List.mem_range]
    omega
  · rw [seedsExplored, List.length_range]

/-- Flipping the sign bit always changes a state, so the two candidates
`FindPID` tests are distinct. -/
theorem seed_ne_flip (seed : Nat) : (seed == seed ^^^ 0x80000000) = false := by
  rw [beq_eq_false_iff_ne]
  intro hcontra
  have h2 := congrArg (fun t => seed ^^^ t) hcontra
  simp only [Nat.xor_self, Nat.xor_cancel_left] at h2
  exact absurd h2 (by decide)

/-- C4: `FindPID` tests exactly the two candidates `seed` and
`seed xor 0x80000000`; each candidate that passes the PID checks emits
exactly one result and bumps the counter by exactly one, so a call emits
at most two results, the counter grows by the number of emissions, the
two candidates are distinct states, and every emitted result is a
passing state. -/
theorem claim4_findpid_emissions (seed iv1 iv2 : Nat) (pdata : PokeData)
    (method : Int) (count : Nat) :
    (FindPID seed iv1 iv2 pdata method count).1.length =
        ((if pidPass pdata seed then 1 else 0) +
          (if pidPass pdata (seed ^^^ 0x80000000) then 1 else 0)) ∧
    (FindPID seed iv1 iv2 pdata method count).2 =
        count + (FindPID seed iv1 iv2 pdata method count).1.length ∧
    (FindPID seed iv1 iv2 pdata method count).1.length ≤ 2 ∧
    (FindPID seed iv1 iv2 pdata method count).1.map PIDResult.state =
        ((if pidPass pdata seed then [seed] else []) ++
          (if pidPass pdata (seed ^^^ 0x80000000) then [seed ^^^ 0x80000000]
            else [])) ∧
    (seed == seed ^^^ 0x80000000) = false ∧
    (FindPID seed iv1 iv2 pdata method count).1.all
        (fun p => pidPass pdata p.state) = true := by
  by_cases hA : pidPass pdata seed <;>
    by_cases hB : pidPass pdata (seed ^^^ 0x80000000) <;>
      simp [FindPID, mkResult, hA, hB, seed_ne_flip seed]

/-- The two-backward-step state of any candidate is restored by one
forward step, whose output is that candidate's derived high PID half. -/
theorem highPID_of_pidOf (c : Nat) :
    HighPIDmatches ((antiRNG (antiRNG c).1).1) ((pidOf c).2) = true := by
  have hs1 : (antiRNG c).1 < M32 := by
    show ((c + (M32 - C)) * Ainv) % M32 < M32
    exact Nat.mod_lt _ (by decide)
  have hr := RNG_antiRNG ((antiRNG c).1) hs1
  show ((RNG ((antiRNG ((antiRNG c).1)).1)).2 == (pidOf c).2) = true
  have h2 : (RNG ((antiRNG ((antiRNG c).1)).1)).2
      = high16 ((RNG ((antiRNG ((antiRNG c).1)).1)).1) := rfl
  rw [h2, hr]
  exact beq_self_eq_true _

/-- C8: whenever `FindPID` emits a result, `HighPIDmatches` applied to
the corresponding state (the one that produced the low PID half, two
backward steps from the accepted candidate) and the high PID half that
`FindPID` derived returns true — the two derivations of the high half
agree. -/
theorem claim8_highpid_agreement (seed iv1 iv2 : Nat) (pdata : PokeData)
    (method : Int) (count : Nat) (r : PIDResult)
    (hr : r ∈ (FindPID seed iv1 iv2 pdata method count).1) :
    HighPIDmatches ((antiRNG (antiRNG r.state).1).1) r.pid_h = true := by
  unfold FindPID at hr
  by_cases hA : pidPass pdata seed <;>
    by_cases hB : pidPass pdata (seed ^^^ 0x80000000) <;>
      simp [hA, hB, mkResult] at hr
  · rcases hr with rfl | rfl
    · exact highPID_of_pidOf seed
    · exact highPID_of_pidOf (seed ^^^ 0x80000000)
  · rcases hr with rfl
    exact highPID_of_pidOf seed
  · rcases hr with rfl
    exact highPID_of_pidOf (seed ^^^ 0x80000000)

/-- Witness for C8: with the maximally permissive default profile,
`FindPID` at seed `0` emits the result for state `0`, and the two
high-half derivations agree on it. -/
theorem claim8_highpid_agreement_witness :
    mkResult 0 0 0 0 ∈ (FindPID 0 0 0 defaultPokeData 0 0).1 ∧
      HighPIDmatches ((antiRNG (antiRNG (mkResult 0 0 0 0).state).1).1)
        (mkResult 0 0 0 0).pid_h = true :=
  ⟨by decide,
    claim8_highpid_agreement 0 0 0 defaultPokeData 0 0 (mkResult 0 0 0 0)
      (by decide)⟩

end IvPid
